import Mathlib

/-!
Shallow embedding of the tic-tac-toe repository's game logic
(`src/tic_tac_toe_logic.py`) and networked game server (`src/server.py`),
together with theorems settling the specification claims.

Conventions of the embedding:
* A numpy `(3, 3)` int array is modelled as a total function
  `Board := Fin 3 → Fin 3 → Int`.
* numpy integer indexing (which accepts negative indices counting from the
  end and raises `IndexError` outside `[-3, 3)`) is modelled by `normIdx`.
* Python exceptions raised by the logic module are modelled by the
  `PyErr` error type of an `Except` result.
* The server's `game['board']`, stored as a nested Python list via
  `tolist()` and converted back with `np.array(...)`, is modelled as a
  `List (List Int)` with the conversions `tolist` / `ofList`.
-/

namespace TicTacToe

/-- `BOARD_SIZE = 3` from `tic_tac_toe_logic.py`. -/
def BOARD_SIZE : Nat := 3

/-- `EMPTY = 0`. -/
def EMPTY : Int := 0

/-- `PLAYER_X = 1`. -/
def PLAYER_X : Int := 1

/-- `PLAYER_O = 2`. -/
def PLAYER_O : Int := 2

/-- A numpy 3×3 integer array, as a total function on coordinates. -/
def Board : Type := Fin 3 → Fin 3 → Int

instance : DecidableEq Board := by unfold Board; infer_instance

/-- `create_initial_state()`: the all-`EMPTY` board (`np.zeros((3, 3))`). -/
def create_initial_state : Board := fun _ _ => EMPTY

/-- numpy index normalization for axes of length 3: indices in `[0, 3)` are
taken as-is, indices in `[-3, 0)` count from the end, anything else raises
`IndexError` (`none`). -/
def normIdx (i : Int) : Option (Fin 3) :=
  if h : 0 ≤ i ∧ i < 3 then some ⟨i.toNat, by omega⟩
  else if h2 : -3 ≤ i ∧ i < 0 then some ⟨(i + 3).toNat, by omega⟩
  else none

/-- Python exceptions that the embedded code can raise. -/
inductive PyErr where
  | valueError (msg : String)
  | indexError
  deriving DecidableEq

/-- In-place element assignment `arr[i, j] = v` on (a copy of) a numpy
array, as a pure update. -/
def updateCell (b : Board) (i j : Fin 3) (v : Int) : Board :=
  fun i' j' => if i' = i ∧ j' = j then v else b i' j'

/-- `get_valid_actions(board)`: the row-major list of `(row, col)` tuples
(Python ints) of the empty cells. -/
def get_valid_actions (board : Board) : List (Int × Int) :=
  (List.finRange 3).flatMap fun r =>
    ((List.finRange 3).filter fun c => board r c = EMPTY).map
      fun c => ((r.val : Int), (c.val : Int))

/-- `apply_action(board, action, player)`: reads `board[row, col]` (numpy
indexing, so `IndexError` outside `[-3, 3)`), raises
`ValueError` if the cell is not `EMPTY`, otherwise returns a copy of the
board with the cell set to `player`. -/
def apply_action (board : Board) (action : Int × Int) (player : Int) :
    Except PyErr Board :=
  match normIdx action.1, normIdx action.2 with
  | some row, some col =>
    if board row col ≠ EMPTY then
      .error (.valueError
        ("Cell (" ++ toString action.1 ++ ", " ++ toString action.2 ++
          ") is not empty."))
    else
      .ok (updateCell board row col player)
  | _, _ => .error .indexError

/-- Column index of the anti-diagonal: `np.diag(np.fliplr(board))[i]`
is `board[i, 2 - i]`. -/
def flipCol (i : Fin 3) : Fin 3 := ⟨2 - i.val, by omega⟩

/-- `check_win_condition(board, player)`: any full row, full column, the
main diagonal, or the anti-diagonal entirely equal to `player`. -/
def check_win_condition (board : Board) (player : Int) : Bool :=
  ((List.finRange 3).any fun r =>
    (List.finRange 3).all fun c => board r c == player) ||
  ((List.finRange 3).any fun c =>
    (List.finRange 3).all fun r => board r c == player) ||
  ((List.finRange 3).all fun i => board i i == player) ||
  ((List.finRange 3).all fun i => board i (flipCol i) == player)

/-- `check_draw_condition(board)`: `np.all(board != EMPTY)`. -/
def check_draw_condition (board : Board) : Bool :=
  (List.finRange 3).all fun r =>
    (List.finRange 3).all fun c => board r c != EMPTY

/-- `get_next_player(current_player)`. -/
def get_next_player (current_player : Int) : Int :=
  if current_player = PLAYER_X then PLAYER_O else PLAYER_X

/-- `board.tolist()`: the nested row-major list of a 3×3 array. -/
def tolist (b : Board) : List (List Int) :=
  (List.finRange 3).map fun r => (List.finRange 3).map fun c => b r c

/-- `np.array(nested_list)` for a well-formed 3×3 nested list (out-of-range
reads default to `0`; every list handled by the server is well-formed). -/
def ofList (l : List (List Int)) : Board :=
  fun r c => (l.getD r.val []).getD c.val 0

theorem ofList_tolist (b : Board) : ofList (tolist b) = b := by
  funext r c
  fin_cases r <;> fin_cases c <;> rfl

/-- Membership characterization of `get_valid_actions`. -/
theorem mem_get_valid_actions (board : Board) (x : Int × Int) :
    x ∈ get_valid_actions board ↔
      ∃ (r c : Fin 3), board r c = EMPTY ∧ x = ((r.val : Int), (c.val : Int)) := by
  simp only [get_valid_actions, List.mem_flatMap, List.mem_map,
    List.mem_filter, List.mem_finRange, true_and, decide_eq_true_eq]
  constructor
  · rintro ⟨r, c, ⟨hc, rfl⟩⟩
    exact ⟨r, c, hc, rfl⟩
  · rintro ⟨r, c, hc, rfl⟩
    exact ⟨r, c, ⟨hc, rfl⟩⟩

/-- Propositional characterization of `check_win_condition`. -/
theorem check_win_iff (b : Board) (p : Int) :
    check_win_condition b p = true ↔
      (∃ r : Fin 3, ∀ c : Fin 3, b r c = p) ∨
      (∃ c : Fin 3, ∀ r : Fin 3, b r c = p) ∨
      (∀ i : Fin 3, b i i = p) ∨
      (∀ i : Fin 3, b i (flipCol i) = p) := by
  simp only [check_win_condition, List.any_eq_true, List.all_eq_true,
    List.mem_finRange, beq_iff_eq, Bool.or_eq_true, true_implies, true_and]
  tauto

/-- Propositional characterization of `check_draw_condition`. -/
theorem check_draw_iff (b : Board) :
    check_draw_condition b = true ↔ ∀ r c : Fin 3, b r c ≠ EMPTY := by
  simp [check_draw_condition, List.all_eq_true, List.mem_finRange,
    bne_iff_ne]

@[simp]
theorem updateCell_same (b : Board) (i j : Fin 3) (v : Int) :
    updateCell b i j v i j = v := by
  simp [updateCell]

theorem updateCell_other (b : Board) (i j i' j' : Fin 3) (v : Int)
    (h : ¬(i' = i ∧ j' = j)) : updateCell b i j v i' j' = b i' j' := by
  simp [updateCell, h]

/-- A move by `p` cannot create a win for a different player `q`: every
line entirely `q` after the update avoids the updated cell, hence was
entirely `q` before. -/
theorem check_win_update_ne (b : Board) (i j : Fin 3) (p q : Int)
    (hpq : q ≠ p) (h : check_win_condition b q = false) :
    check_win_condition (updateCell b i j p) q = false := by
  rw [← Bool.not_eq_true] at h ⊢
  intro hw
  apply h
  rw [check_win_iff] at hw ⊢
  have hcell : ∀ i' j' : Fin 3, updateCell b i j p i' j' = q → b i' j' = q := by
    intro i' j' hq
    by_cases hc : i' = i ∧ j' = j
    · rw [hc.1, hc.2, updateCell_same] at hq
      exact absurd hq.symm hpq
    · rwa [updateCell_other b i j i' j' p hc] at hq
  rcases hw with ⟨r, hr⟩ | ⟨c, hc⟩ | hd | ha
  · exact .inl ⟨r, fun c => hcell r c (hr c)⟩
  · exact .inr (.inl ⟨c, fun r => hcell r c (hc r)⟩)
  · exact .inr (.inr (.inl fun k => hcell k k (hd k)))
  · exact .inr (.inr (.inr fun k => hcell k (flipCol k) (ha k)))

@[simp]
theorem normIdx_coe (i : Fin 3) : normIdx (i.val : Int) = some i := by
  fin_cases i <;> rfl

/-- `normIdx` fails exactly outside numpy's accepted index range. -/
theorem normIdx_eq_none_iff (i : Int) :
    normIdx i = none ↔ ¬(-3 ≤ i ∧ i < 3) := by
  unfold normIdx
  split
  · rename_i h
    exact iff_of_false (by simp) (by omega)
  · split
    · rename_i h h2
      exact iff_of_false (by simp) (by omega)
    · rename_i h h2
      exact iff_of_true rfl (by omega)

theorem normIdx_eq_some_of_nonneg (i : Int) (h0 : 0 ≤ i) (h3 : i < 3) :
    normIdx i = some ⟨i.toNat, by omega⟩ := by
  unfold normIdx
  rw [dif_pos ⟨h0, h3⟩]

/-- Successful `apply_action` on an in-range empty cell, stated with
`Fin`-valued coordinates. -/
theorem apply_action_coe (b : Board) (r c : Fin 3) (p : Int)
    (h : b r c = EMPTY) :
    apply_action b ((r.val : Int), (c.val : Int)) p =
      .ok (updateCell b r c p) := by
  simp [apply_action, h]

/-- A move drawn from `get_valid_actions` succeeds and is an
`updateCell` of an empty cell. -/
theorem apply_action_of_valid (b : Board) (x : Int × Int) (p : Int)
    (hx : x ∈ get_valid_actions b) :
    ∃ r c : Fin 3, b r c = EMPTY ∧ x = ((r.val : Int), (c.val : Int)) ∧
      apply_action b x p = .ok (updateCell b r c p) := by
  rw [mem_get_valid_actions] at hx
  obtain ⟨r, c, hc, rfl⟩ := hx
  exact ⟨r, c, hc, rfl, apply_action_coe b r c p hc⟩

/-! ## Server model (`src/server.py`)

Connections (asyncio writer objects) are modelled as natural-number
identities.  The server's three module-level dictionaries `games`,
`waiting_clients` and `client_to_game` are modelled as association lists
with Python-dict semantics (assignment replaces in place or appends,
`pop` removes the key, `popitem` takes the most recently inserted entry).
`random.randint` game ids are modelled by a fresh-id counter
(`nextGameId`); ids only serve as dictionary keys.  The redundant
`'players'` entry of the game dict (never read by the server) is omitted.
Outbound traffic is returned as a list of (connection, message) pairs in
send order. -/

/-- Outbound JSON messages of the server, by `"type"` tag. -/
inductive Msg where
  | waitingMsg (message : String)
  | gameStart (player_id : Int) (message : String)
  | stateUpdate (board : List (List Int)) (current_turn : Int)
  | invalidMove (message : String)
  | gameOver (winner : Int) (board : List (List Int))
  | errorMsg (message : String)
  | opponentDisconnected
  deriving DecidableEq

/-- One decoded inbound frame: either a `json.loads` failure, or a parsed
object of which the server reads only `message.get("type")` and
`message.get("cell")`. -/
inductive Frame where
  | malformed
  | msg (msgType : Option String) (cell : Option Int)

/-- One entry of the `games` dict (minus the unused `'players'` map).
The board is stored as a nested list, exactly as
`create_initial_state().tolist()` / `new_board_np.tolist()` store it. -/
structure GameState where
  board : List (List Int)
  current_turn : Int
  player1_writer : Nat
  player2_writer : Nat
  deriving DecidableEq

/-- The server's module-level mutable state. -/
structure ServerState where
  games : List (Nat × GameState)
  waiting_clients : List Nat
  client_to_game : List (Nat × Nat)
  nextGameId : Nat
  deriving DecidableEq

/-- The state at interpreter start: all dictionaries empty. -/
def initialServer : ServerState := ⟨[], [], [], 0⟩

/-- Python dict lookup `d.get(k)` on an association list. -/
def lookupK {β : Type} : List (Nat × β) → Nat → Option β
  | [], _ => none
  | (k', v) :: t, k => if k' = k then some v else lookupK t k

/-- Key-preserving in-place replacement, helper for `insertK`. -/
def replaceK {β : Type} : List (Nat × β) → Nat → β → List (Nat × β)
  | [], _, _ => []
  | (k', w) :: t, k, v =>
    if k' = k then (k, v) :: replaceK t k v else (k', w) :: replaceK t k v

/-- Python dict assignment `d[k] = v`: replace in place if the key is
present, else append. -/
def insertK {β : Type} (l : List (Nat × β)) (k : Nat) (v : β) :
    List (Nat × β) :=
  if (lookupK l k).isSome then replaceK l k v else l ++ [(k, v)]

/-- Python dict removal `d.pop(k, None)`. -/
def eraseK {β : Type} : List (Nat × β) → Nat → List (Nat × β)
  | [], _ => []
  | (k', v) :: t, k =>
    if k' = k then eraseK t k else (k', v) :: eraseK t k

@[simp]
theorem lookupK_nil {β : Type} (k : Nat) : lookupK ([] : List (Nat × β)) k = none :=
  rfl

theorem lookupK_append {β : Type} (l l' : List (Nat × β)) (k : Nat) :
    lookupK (l ++ l') k =
      match lookupK l k with
      | some v => some v
      | none => lookupK l' k := by
  induction l with
  | nil => simp [lookupK]
  | cons hd t ih =>
    by_cases h : hd.1 = k <;> simp [lookupK, h, ih]

theorem lookupK_replaceK {β : Type} (l : List (Nat × β)) (k k' : Nat) (v : β) :
    lookupK (replaceK l k v) k' =
      if k = k' then (lookupK l k).map (fun _ => v) else lookupK l k' := by
  induction l with
  | nil => by_cases hk : k = k' <;> simp [replaceK, lookupK, hk]
  | cons hd t ih =>
    obtain ⟨a, b⟩ := hd
    by_cases ha : a = k
    · subst ha
      by_cases hk : a = k'
      · subst hk
        simp [replaceK, lookupK]
      · simp [replaceK, lookupK, hk, ih]
    · by_cases hk : k = k'
      · subst hk
        simp [replaceK, lookupK, ha, ih]
      · by_cases ha' : a = k'
        · subst ha'
          simp [replaceK, lookupK, ha, show ¬k = a by omega, ih]
        · simp [replaceK, lookupK, ha, ha', hk, ih]

theorem lookupK_insertK {β : Type} (l : List (Nat × β)) (k k' : Nat) (v : β) :
    lookupK (insertK l k v) k' = if k = k' then some v else lookupK l k' := by
  unfold insertK
  split
  · rename_i hsome
    rw [lookupK_replaceK]
    obtain ⟨w, hw⟩ := Option.isSome_iff_exists.mp hsome
    rw [hw]
    by_cases hk : k = k' <;> simp [hk]
  · rename_i hnone
    rw [Option.not_isSome_iff_eq_none] at hnone
    rw [lookupK_append]
    by_cases hk : k = k'
    · rw [← hk, hnone]
      simp [lookupK, hk]
    · cases h : lookupK l k' with
      | some w => simp [hk]
      | none => simp [lookupK, hk, show ¬k = k' from hk]

theorem lookupK_eraseK {β : Type} (l : List (Nat × β)) (k k' : Nat) :
    lookupK (eraseK l k) k' = if k = k' then none else lookupK l k' := by
  induction l with
  | nil => by_cases hk : k = k' <;> simp [eraseK, lookupK, hk]
  | cons hd t ih =>
    obtain ⟨a, b⟩ := hd
    by_cases ha : a = k
    · subst ha
      by_cases hk : a = k'
      · subst hk
        simp [eraseK, ih]
      · simp [eraseK, lookupK, hk, ih]
    · by_cases ha' : a = k'
      · subst ha'
        simp [eraseK, lookupK, ha, show ¬k = a by omega, ih]
      · by_cases hk : k = k'
        · subst hk
          simp [eraseK, lookupK, ha, ha', ih]
        · simp [eraseK, lookupK, ha, ha', hk, ih]

/-- `start_game(writer1, writer2)`: create the game dict (`writer1` is
Player X, `writer2` Player O), register both clients, send GAME_START to
each and broadcast the initial STATE_UPDATE (player 1 first). -/
def start_game (st : ServerState) (writer1 writer2 : Nat) :
    ServerState × List (Nat × Msg) :=
  let game_id := st.nextGameId
  let game_state : GameState :=
    ⟨tolist create_initial_state, PLAYER_X, writer1, writer2⟩
  ({ st with
      games := insertK st.games game_id game_state
      client_to_game :=
        insertK (insertK st.client_to_game writer1 game_id) writer2 game_id
      nextGameId := st.nextGameId + 1 },
   [(writer1, .gameStart PLAYER_X "Game started. You are Player X."),
    (writer2, .gameStart PLAYER_O "Game started. You are Player O."),
    (writer1, .stateUpdate game_state.board game_state.current_turn),
    (writer2, .stateUpdate game_state.board game_state.current_turn)])

/-- The connection-arrival prologue of `handle_client`: if
`waiting_clients` is empty the new connection is enqueued and told
WAITING, else `waiting_clients.popitem()` (the most recently inserted
entry — the dict never holds more than one) is paired as Player X with
the new connection as Player O. -/
def on_connect (st : ServerState) (conn : Nat) :
    ServerState × List (Nat × Msg) :=
  match st.waiting_clients.getLast? with
  | none =>
    ({ st with waiting_clients := st.waiting_clients ++ [conn] },
     [(conn, .waitingMsg "Waiting for an opponent...")])
  | some other_writer =>
    start_game { st with waiting_clients := st.waiting_clients.dropLast }
      other_writer conn

/-- Whether the read loop continues to the next frame (`continue`) or
ends connection handling (`break` / uncaught exception). -/
inductive LoopAct where
  | next
  | stop
  deriving DecidableEq

/-- Result of processing one inbound frame: the new module-level state,
the outbound messages in send order, and whether the loop continues. -/
structure StepResult where
  state : ServerState
  msgs : List (Nat × Msg)
  act : LoopAct
  deriving DecidableEq

/-- `broadcast(game_id, message)`: send to player 1 then player 2. -/
def broadcastMsgs (g : GameState) (m : Msg) : List (Nat × Msg) :=
  [(g.player1_writer, m), (g.player2_writer, m)]

/-- The game-termination cleanup run in the win and draw branches:
`games.pop(game_id)` and `client_to_game.pop(...)` for both writers. -/
def cleanupGame (st : ServerState) (game_id : Nat) (g : GameState) :
    ServerState :=
  { st with
      games := eraseK st.games game_id
      client_to_game :=
        eraseK (eraseK st.client_to_game g.player1_writer) g.player2_writer }

/-- The `"MAKE_MOVE"` branch of `handle_client` for a sender identified
as `player_id` in game `game_id`. -/
def handle_make_move (st : ServerState) (sender : Nat) (game_id : Nat)
    (game : GameState) (player_id : Int) (cell : Option Int) : StepResult :=
  if player_id ≠ game.current_turn then
    ⟨st, [(sender, .invalidMove "Not your turn.")], .next⟩
  else
    match cell with
    | none => ⟨st, [(sender, .invalidMove "Invalid cell index.")], .next⟩
    | some cell_index =>
      if ¬(0 ≤ cell_index ∧ cell_index < 9) then
        ⟨st, [(sender, .invalidMove "Invalid cell index.")], .next⟩
      else
        -- row, col = divmod(cell_index, BOARD_SIZE)
        let row := cell_index / 3
        let col := cell_index % 3
        let board_np := ofList game.board
        if (row, col) ∉ get_valid_actions board_np then
          ⟨st, [(sender, .invalidMove "Cell is already occupied or invalid.")],
            .next⟩
        else
          match apply_action board_np (row, col) player_id with
          | .ok new_board_np =>
            let game' : GameState := { game with board := tolist new_board_np }
            if check_win_condition new_board_np player_id then
              ⟨cleanupGame st game_id game',
                broadcastMsgs game' (.gameOver player_id game'.board), .stop⟩
            else if check_draw_condition new_board_np then
              ⟨cleanupGame st game_id game',
                broadcastMsgs game' (.gameOver 0 game'.board), .stop⟩
            else
              let game'' : GameState :=
                { game' with current_turn := get_next_player player_id }
              ⟨{ st with games := insertK st.games game_id game'' },
                broadcastMsgs game''
                  (.stateUpdate game''.board game''.current_turn), .next⟩
          | .error (.valueError s) =>
            -- `except ValueError as e` safeguard
            ⟨st, [(sender, .invalidMove s)], .next⟩
          | .error .indexError =>
            -- an uncaught exception would end this client's handler
            ⟨st, [], .stop⟩

/-- Which player a writer is within a game (`player1_writer` checked
first, as in the source's if/elif). -/
def roleOf (game : GameState) (sender : Nat) : Option Int :=
  if game.player1_writer = sender then some PLAYER_X
  else if game.player2_writer = sender then some PLAYER_O
  else none

/-- One iteration of the `handle_client` read loop on a decoded frame:
JSON errors, the not-in-a-game guard, registry consistency check, player
identification, then message dispatch (only `"MAKE_MOVE"` is handled;
other message types are ignored). -/
def handle_frame (st : ServerState) (sender : Nat) (f : Frame) : StepResult :=
  match f with
  | .malformed =>
    ⟨st, [(sender, .errorMsg "Invalid JSON format.")], .next⟩
  | .msg msgType cell =>
    match lookupK st.client_to_game sender with
    | none => ⟨st, [], .next⟩
    | some game_id =>
      match lookupK st.games game_id with
      | none =>
        ⟨st, [(sender, .errorMsg "Internal server error: Game not found.")],
          .stop⟩
      | some game =>
        match roleOf game sender with
        | none => ⟨st, [], .stop⟩
        | some player_id =>
          if msgType = some "MAKE_MOVE" then
            handle_make_move st sender game_id game player_id cell
          else
            ⟨st, [], .next⟩

/-- Server states reachable from interpreter start by connection arrivals
and frame processing. -/
inductive Reachable : ServerState → Prop where
  | init : Reachable initialServer
  | connect (st : ServerState) (conn : Nat) :
      Reachable st → Reachable (on_connect st conn).1
  | frame (st : ServerState) (sender : Nat) (f : Frame) :
      Reachable st → Reachable (handle_frame st sender f).state

/-! ## Claim theorems -/

/-- Modelled from the spec: the `2N+2` winning lines of the `N = 3`
board — the `N` rows, the `N` columns and the `2` diagonals. -/
def winning_lines : List (List (Fin 3 × Fin 3)) :=
  ((List.finRange 3).map fun r => (List.finRange 3).map fun c => (r, c)) ++
  ((List.finRange 3).map fun c => (List.finRange 3).map fun r => (r, c)) ++
  [(List.finRange 3).map fun i => (i, i),
   (List.finRange 3).map fun i => (i, flipCol i)]

/-- C7: `check_win_condition(board, player)` returns true if and only if
at least one of the 2N+2 winning lines (the N rows, the N columns, and
the 2 diagonals) has every cell equal to `player`. -/
theorem claim_has_won_iff_line (board : Board) (player : Int) :
    check_win_condition board player = true ↔
      ∃ line ∈ winning_lines, ∀ pos ∈ line, board pos.1 pos.2 = player := by
  rw [check_win_iff]
  constructor
  · rintro (⟨r, hr⟩ | ⟨c, hc⟩ | hd | ha)
    · refine ⟨(List.finRange 3).map fun c => (r, c),
        List.mem_append_left _
          (List.mem_append_left _
            (List.mem_map.mpr ⟨r, List.mem_finRange r, rfl⟩)), ?_⟩
      rintro pos hpos
      obtain ⟨c, -, rfl⟩ := List.mem_map.mp hpos
      exact hr c
    · refine ⟨(List.finRange 3).map fun r => (r, c),
        List.mem_append_left _
          (List.mem_append_right _
            (List.mem_map.mpr ⟨c, List.mem_finRange c, rfl⟩)), ?_⟩
      rintro pos hpos
      obtain ⟨r, -, rfl⟩ := List.mem_map.mp hpos
      exact hc r
    · refine ⟨(List.finRange 3).map fun i => (i, i),
        List.mem_append_right _ (List.mem_cons_self _ _), ?_⟩
      rintro pos hpos
      obtain ⟨i, -, rfl⟩ := List.mem_map.mp hpos
      exact hd i
    · refine ⟨(List.finRange 3).map fun i => (i, flipCol i),
        List.mem_append_right _
          (List.mem_cons_of_mem _ (List.mem_cons_self _ _)), ?_⟩
      rintro pos hpos
      obtain ⟨i, -, rfl⟩ := List.mem_map.mp hpos
      exact ha i
  · rintro ⟨line, hline, hall⟩
    rcases List.mem_append.mp hline with hrc | hdiag
    · rcases List.mem_append.mp hrc with hrow | hcol
      · obtain ⟨r, -, rfl⟩ := List.mem_map.mp hrow
        exact .inl ⟨r, fun c =>
          hall (r, c) (List.mem_map.mpr ⟨c, List.mem_finRange c, rfl⟩)⟩
      · obtain ⟨c, -, rfl⟩ := List.mem_map.mp hcol
        exact .inr (.inl ⟨c, fun r =>
          hall (r, c) (List.mem_map.mpr ⟨r, List.mem_finRange r, rfl⟩)⟩)
    · rcases List.mem_cons.mp hdiag with rfl | hanti
      · exact .inr (.inr (.inl fun i =>
          hall (i, i) (List.mem_map.mpr ⟨i, List.mem_finRange i, rfl⟩)))
      · rcases List.mem_cons.mp hanti with rfl | hnil
        · exact .inr (.inr (.inr fun i =>
            hall (i, flipCol i)
              (List.mem_map.mpr ⟨i, List.mem_finRange i, rfl⟩)))
        · exact absurd hnil (List.not_mem_nil _)

/-- C2 (amended): `apply_action` fails with `IndexError` when either
coordinate is outside numpy's accepted range `[-3, 3)`; with a
`ValueError` (the spec's `IllegalMove`) when the addressed (numpy-
normalized) cell is not Empty; and otherwise returns a new board equal
to the input except that the addressed cell is set to `player`. -/
theorem claim_apply_action_errors (board : Board) (r c player : Int) :
    (¬((-3 ≤ r ∧ r < 3) ∧ (-3 ≤ c ∧ c < 3)) →
      apply_action board (r, c) player = .error .indexError)
    ∧ (∀ fr fc : Fin 3, normIdx r = some fr → normIdx c = some fc →
        board fr fc ≠ EMPTY →
        ∃ s, apply_action board (r, c) player = .error (.valueError s))
    ∧ (∀ fr fc : Fin 3, normIdx r = some fr → normIdx c = some fc →
        board fr fc = EMPTY →
        apply_action board (r, c) player = .ok (updateCell board fr fc player)
        ∧ updateCell board fr fc player fr fc = player
        ∧ ∀ i j : Fin 3, ¬(i = fr ∧ j = fc) →
            updateCell board fr fc player i j = board i j) := by
  refine ⟨?_, ?_, ?_⟩
  · intro h
    have hor : normIdx r = none ∨ normIdx c = none := by
      rcases not_and_or.mp h with h1 | h1
      · exact .inl ((normIdx_eq_none_iff r).mpr h1)
      · exact .inr ((normIdx_eq_none_iff c).mpr h1)
    rcases hor with h1 | h1
    · simp [apply_action, h1]
    · cases h2 : normIdx r <;> simp [apply_action, h1, h2]
  · intro fr fc hr hc hne
    exact ⟨"Cell (" ++ toString r ++ ", " ++ toString c ++ ") is not empty.",
      by simp [apply_action, hr, hc, hne]⟩
  · intro fr fc hr hc hemp
    refine ⟨by simp [apply_action, hr, hc, hemp], updateCell_same _ _ _ _,
      fun i j hij => updateCell_other _ _ _ _ _ _ hij⟩

/-- C2, counterexample to the claim as stated: the cell `(-1, -1)` is out
of range (not a coordinate of the grid), yet `apply_action` succeeds —
numpy's negative indexing silently addresses cell `(2, 2)`. -/
theorem claim_apply_action_errors_counterexample :
    ¬(0 ≤ (-1 : Int) ∧ (-1 : Int) < 3)
    ∧ (apply_action create_initial_state (-1, -1) PLAYER_X).toOption.map
        (fun b => tolist b) = some [[0, 0, 0], [0, 0, 0], [0, 0, 1]] := by
  exact ⟨by decide, by decide⟩

/-- C2, witness: a successful in-range application. -/
theorem claim_apply_action_errors_witness :
    apply_action create_initial_state ((0 : Int), (0 : Int)) PLAYER_X =
      .ok (updateCell create_initial_state 0 0 PLAYER_X) :=
  ((claim_apply_action_errors create_initial_state 0 0 PLAYER_X).2.2 0 0
    (by decide) (by decide) rfl).1

/-- C5: a MAKE_MOVE from a participant whose role is not the current
turn gets INVALID_MOVE("Not your turn.") sent only to that connection,
with the state unchanged and the read loop continuing. -/
theorem claim_wrong_turn_rejected (st : ServerState) (sender game_id : Nat)
    (game : GameState) (player_id : Int) (cell : Option Int)
    (hctg : lookupK st.client_to_game sender = some game_id)
    (hg : lookupK st.games game_id = some game)
    (hrole : roleOf game sender = some player_id)
    (hturn : player_id ≠ game.current_turn) :
    handle_frame st sender (.msg (some "MAKE_MOVE") cell) =
      ⟨st, [(sender, .invalidMove "Not your turn.")], .next⟩ := by
  simp [handle_frame, hctg, hg, hrole, handle_make_move, hturn]

/-- C5, witness: Player O (connection 2) moving first in a fresh game. -/
theorem claim_wrong_turn_rejected_witness :
    handle_frame
        ⟨[(0, ⟨[[0, 0, 0], [0, 0, 0], [0, 0, 0]], PLAYER_X, 1, 2⟩)], [],
          [(1, 0), (2, 0)], 1⟩
        2 (.msg (some "MAKE_MOVE") (some 0)) =
      ⟨⟨[(0, ⟨[[0, 0, 0], [0, 0, 0], [0, 0, 0]], PLAYER_X, 1, 2⟩)], [],
          [(1, 0), (2, 0)], 1⟩,
        [(2, .invalidMove "Not your turn.")], .next⟩ :=
  claim_wrong_turn_rejected _ 2 0 _ PLAYER_O (some 0) rfl rfl rfl (by decide)

/-- C6 (amended): a malformed-JSON frame gets an ERROR response, with the
connection and session untouched and the loop continuing; a frame with
an unknown message type from a participant of a live game is silently
ignored (no ERROR is sent), also keeping everything alive. -/
theorem claim_protocol_errors :
    (∀ st (sender : Nat), handle_frame st sender .malformed =
      ⟨st, [(sender, .errorMsg "Invalid JSON format.")], .next⟩)
    ∧ (∀ st (sender game_id : Nat) game player_id msgType cell,
        lookupK st.client_to_game sender = some game_id →
        lookupK st.games game_id = some game →
        roleOf game sender = some player_id →
        msgType ≠ some "MAKE_MOVE" →
        handle_frame st sender (.msg msgType cell) = ⟨st, [], .next⟩) := by
  refine ⟨fun st sender => rfl, ?_⟩
  intro st sender game_id game player_id msgType cell hctg hg hrole hty
  simp [handle_frame, hctg, hg, hrole, hty]

/-- C6, counterexample to the claim as stated: an unknown message type
(`"CHAT"`) from a player of a live game produces no response at all —
in particular no ERROR message. -/
theorem claim_protocol_errors_counterexample :
    (handle_frame
        ⟨[(0, ⟨[[0, 0, 0], [0, 0, 0], [0, 0, 0]], PLAYER_X, 1, 2⟩)], [],
          [(1, 0), (2, 0)], 1⟩
        1 (.msg (some "CHAT") none)).msgs = []
    ∧ (handle_frame
        ⟨[(0, ⟨[[0, 0, 0], [0, 0, 0], [0, 0, 0]], PLAYER_X, 1, 2⟩)], [],
          [(1, 0), (2, 0)], 1⟩
        1 (.msg (some "CHAT") none)).act = .next := by
  exact ⟨rfl, rfl⟩

/-- C6, witness: the ignored-unknown-type branch at a concrete state. -/
theorem claim_protocol_errors_witness :
    handle_frame
        ⟨[(0, ⟨[[0, 0, 0], [0, 0, 0], [0, 0, 0]], PLAYER_X, 1, 2⟩)], [],
          [(1, 0), (2, 0)], 1⟩
        1 (.msg (some "PING") (some 4)) =
      ⟨⟨[(0, ⟨[[0, 0, 0], [0, 0, 0], [0, 0, 0]], PLAYER_X, 1, 2⟩)], [],
          [(1, 0), (2, 0)], 1⟩, [], .next⟩ :=
  claim_protocol_errors.2 _ 1 0 _ PLAYER_X (some "PING") (some 4)
    rfl rfl rfl (by decide)

/-- `handle_make_move` never touches the waiting queue. -/
theorem handle_make_move_waiting (st : ServerState) (sender game_id : Nat)
    (game : GameState) (player_id : Int) (cell : Option Int) :
    (handle_make_move st sender game_id game player_id cell).state.waiting_clients
      = st.waiting_clients := by
  unfold handle_make_move
  repeat' split <;> try rfl
  dsimp only
  repeat' split <;> try rfl

/-- `handle_frame` never touches the waiting queue. -/
theorem handle_frame_waiting (st : ServerState) (sender : Nat) (f : Frame) :
    (handle_frame st sender f).state.waiting_clients = st.waiting_clients := by
  unfold handle_frame
  rcases f with _ | ⟨msgType, cell⟩
  · rfl
  · repeat' split <;> try rfl
    exact handle_make_move_waiting ..

/-- On every reachable state the waiting dict holds at most one entry:
a connection is enqueued only when the dict is empty, and pairing
removes the only entry. -/
theorem waiting_length_le_one (st : ServerState) (h : Reachable st) :
    st.waiting_clients.length ≤ 1 := by
  induction h with
  | init => simp [initialServer]
  | connect st conn _ ih =>
    unfold on_connect
    cases hl : st.waiting_clients.getLast? with
    | none =>
      have : st.waiting_clients = [] := List.getLast?_eq_none_iff.mp hl
      simp [this]
    | some w =>
      simp only [start_game]
      have := st.waiting_clients.length_dropLast
      omega
  | frame st sender f _ ih =>
    rw [handle_frame_waiting]
    exact ih

/-- C4: matchmaking is one-shot FIFO with the waiting connection taking
role A.  (i) A connection arriving at an empty queue is enqueued and
sent WAITING.  (ii) A connection arriving at the (at most singleton,
part (iii)) non-empty queue is paired with the queued connection, which
becomes Player X (role A) while the arrival becomes Player O; each gets
GAME_START with its role, then both get the initial STATE_UPDATE with
the empty board and turn X.  (iii) Reachable waiting queues hold at most
one connection.  (iv) Connections 1, 2, 3 arriving in that order yield a
game with 1 as X and 2 as O, and 3 left waiting. -/
theorem claim_matchmaking_fifo :
    (∀ st (conn : Nat), st.waiting_clients = [] →
      on_connect st conn =
        ({ st with waiting_clients := [conn] },
         [(conn, .waitingMsg "Waiting for an opponent...")]))
    ∧ (∀ st (conn other : Nat), st.waiting_clients = [other] →
        on_connect st conn =
          ({ st with
              waiting_clients := []
              games := insertK st.games st.nextGameId
                ⟨tolist create_initial_state, PLAYER_X, other, conn⟩
              client_to_game :=
                insertK (insertK st.client_to_game other st.nextGameId)
                  conn st.nextGameId
              nextGameId := st.nextGameId + 1 },
           [(other, .gameStart PLAYER_X "Game started. You are Player X."),
            (conn, .gameStart PLAYER_O "Game started. You are Player O."),
            (other, .stateUpdate (tolist create_initial_state) PLAYER_X),
            (conn, .stateUpdate (tolist create_initial_state) PLAYER_X)]))
    ∧ (∀ st, Reachable st → st.waiting_clients.length ≤ 1)
    ∧ (lookupK ((on_connect (on_connect initialServer 1).1 2).1).games 0 =
        some ⟨tolist create_initial_state, PLAYER_X, 1, 2⟩
      ∧ (on_connect (on_connect (on_connect initialServer 1).1 2).1 3).1.waiting_clients = [3]
      ∧ (on_connect (on_connect (on_connect initialServer 1).1 2).1 3).2 =
          [(3, .waitingMsg "Waiting for an opponent...")]) := by
  refine ⟨?_, ?_, waiting_length_le_one, by decide, by decide, by decide⟩
  · intro st conn h
    simp [on_connect, h]
  · intro st conn other h
    simp [on_connect, h, start_game]

/-- C4, witness: a connection arriving at a fresh (empty-queue) server
is enqueued and told WAITING. -/
theorem claim_matchmaking_fifo_witness :
    on_connect initialServer 7 =
      ({ initialServer with waiting_clients := [7] },
       [(7, .waitingMsg "Waiting for an opponent...")]) :=
  claim_matchmaking_fifo.1 initialServer 7 rfl

/-- C3: from a fresh session between connections 1 (X/A) and 2 (O/B),
the moves A→0, B→3, A→1, B→4, A→2 are all accepted (each of the first
four broadcasts a STATE_UPDATE), and the last move broadcasts GAME_OVER
with winner A and final board `[[1,1,1],[2,2,0],[0,0,0]]` (row-major
flattening `[1,1,1,2,2,0,0,0,0]`), after which the game is gone and both
participants are deregistered from the registry maps. -/
theorem claim_scenario_row_win :
    (let s2 := (on_connect (on_connect initialServer 1).1 2).1
     let t1 := handle_frame s2 1 (.msg (some "MAKE_MOVE") (some 0))
     let t2 := handle_frame t1.state 2 (.msg (some "MAKE_MOVE") (some 3))
     let t3 := handle_frame t2.state 1 (.msg (some "MAKE_MOVE") (some 1))
     let t4 := handle_frame t3.state 2 (.msg (some "MAKE_MOVE") (some 4))
     let t5 := handle_frame t4.state 1 (.msg (some "MAKE_MOVE") (some 2))
     t1.msgs = broadcastMsgs ⟨[], 0, 1, 2⟩
         (.stateUpdate [[1, 0, 0], [0, 0, 0], [0, 0, 0]] PLAYER_O)
     ∧ t1.act = .next
     ∧ t2.msgs = broadcastMsgs ⟨[], 0, 1, 2⟩
         (.stateUpdate [[1, 0, 0], [2, 0, 0], [0, 0, 0]] PLAYER_X)
     ∧ t2.act = .next
     ∧ t3.msgs = broadcastMsgs ⟨[], 0, 1, 2⟩
         (.stateUpdate [[1, 1, 0], [2, 0, 0], [0, 0, 0]] PLAYER_O)
     ∧ t3.act = .next
     ∧ t4.msgs = broadcastMsgs ⟨[], 0, 1, 2⟩
         (.stateUpdate [[1, 1, 0], [2, 2, 0], [0, 0, 0]] PLAYER_X)
     ∧ t4.act = .next
     ∧ t5.msgs = broadcastMsgs ⟨[], 0, 1, 2⟩
         (.gameOver PLAYER_X [[1, 1, 1], [2, 2, 0], [0, 0, 0]])
     ∧ t5.act = .stop
     ∧ ([[1, 1, 1], [2, 2, 0], [0, 0, 0]] : List (List Int)).flatten =
         [1, 1, 1, 2, 2, 0, 0, 0, 0]
     ∧ t5.state.games = []
     ∧ t5.state.client_to_game = []) := by
  decide

/-- A writer identified within a game is Player X or Player O. -/
theorem roleOf_mem (game : GameState) (sender : Nat) (p : Int)
    (h : roleOf game sender = some p) : p = PLAYER_X ∨ p = PLAYER_O := by
  unfold roleOf at h
  split at h
  · exact .inl (Option.some_injective _ h).symm
  · split at h
    · exact .inr (Option.some_injective _ h).symm
    · exact absurd h (by simp)

/-- C8: a legal final move that fills the board without a
three-in-a-row for either role makes the session broadcast GAME_OVER
with winner NONE (0) to both players and tear the game out of the
registry; and `check_draw_condition` is true iff no cell is Empty. -/
theorem claim_draw_game_over (st : ServerState) (sender game_id : Nat)
    (game : GameState) (player_id cell_index : Int) (fr fc : Fin 3)
    (hctg : lookupK st.client_to_game sender = some game_id)
    (hg : lookupK st.games game_id = some game)
    (hrole : roleOf game sender = some player_id)
    (hturn : player_id = game.current_turn)
    (h0 : 0 ≤ cell_index) (h9 : cell_index < 9)
    (hrow : cell_index / 3 = (fr.val : Int))
    (hcol : cell_index % 3 = (fc.val : Int))
    (hempty : ofList game.board fr fc = EMPTY)
    (hnw1 : check_win_condition
      (updateCell (ofList game.board) fr fc player_id) PLAYER_X = false)
    (hnw2 : check_win_condition
      (updateCell (ofList game.board) fr fc player_id) PLAYER_O = false)
    (hfull : ∀ i j : Fin 3,
      updateCell (ofList game.board) fr fc player_id i j ≠ EMPTY) :
    (handle_frame st sender (.msg (some "MAKE_MOVE") (some cell_index)) =
      ⟨cleanupGame st game_id
          { game with
              board := tolist (updateCell (ofList game.board) fr fc player_id) },
        broadcastMsgs
          { game with
              board := tolist (updateCell (ofList game.board) fr fc player_id) }
          (.gameOver 0
            (tolist (updateCell (ofList game.board) fr fc player_id))),
        .stop⟩)
    ∧ (∀ b : Board, check_draw_condition b = true ↔
        ∀ i j : Fin 3, b i j ≠ EMPTY) := by
  have hmem : (cell_index / 3, cell_index % 3) ∈
      get_valid_actions (ofList game.board) := by
    rw [hrow, hcol]
    exact (mem_get_valid_actions _ _).mpr ⟨fr, fc, hempty, rfl⟩
  have happ : apply_action (ofList game.board)
      (cell_index / 3, cell_index % 3) player_id =
      .ok (updateCell (ofList game.board) fr fc player_id) := by
    rw [hrow, hcol]
    exact apply_action_coe _ _ _ _ hempty
  have hwfalse : check_win_condition
      (updateCell (ofList game.board) fr fc player_id) player_id = false := by
    rcases roleOf_mem game sender player_id hrole with rfl | rfl
    · exact hnw1
    · exact hnw2
  have hdraw : check_draw_condition
      (updateCell (ofList game.board) fr fc player_id) = true :=
    (check_draw_iff _).mpr fun i j => hfull i j
  refine ⟨?_, fun b => check_draw_iff b⟩
  simp only [handle_frame, hctg, hg, hrole, handle_make_move, ← hturn,
    ne_eq, not_true_eq_false, if_false, ite_not, hmem, happ, hwfalse,
    Bool.false_eq_true, hdraw, if_true]
  rw [if_pos ⟨h0, h9⟩]

/-- C8, witness: connection 1 (X) fills the last cell of a winnerless
board; both players get GAME_OVER with winner 0. -/
theorem claim_draw_game_over_witness :
    (handle_frame
        ⟨[(0, ⟨[[1, 2, 1], [1, 2, 2], [2, 1, 0]], PLAYER_X, 1, 2⟩)], [],
          [(1, 0), (2, 0)], 1⟩
        1 (.msg (some "MAKE_MOVE") (some 8))).msgs =
      [(1, .gameOver 0 [[1, 2, 1], [1, 2, 2], [2, 1, 1]]),
       (2, .gameOver 0 [[1, 2, 1], [1, 2, 2], [2, 1, 1]])] := by
  rw [(claim_draw_game_over
    ⟨[(0, ⟨[[1, 2, 1], [1, 2, 2], [2, 1, 0]], PLAYER_X, 1, 2⟩)], [],
      [(1, 0), (2, 0)], 1⟩
    1 0 ⟨[[1, 2, 1], [1, 2, 2], [2, 1, 0]], PLAYER_X, 1, 2⟩ PLAYER_X 8 2 2
    rfl rfl rfl rfl (by decide) (by decide) (by decide) (by decide) rfl
    (by decide) (by decide) (by decide)).1]
  rfl

/-! ## Heap model for the non-mutation claim

`apply_action`'s body is `new_board = board.copy();
new_board[row, col] = player; return new_board`.  To make mutation (or
its absence) observable, the same body is re-run against an explicit
store of numpy arrays: array references are indices into a list of
boards, `copy()` allocates a fresh slot, and the element assignment
writes through the fresh reference. -/

/-- Dereference an array reference in the store. -/
def heapGetBoard (h : List Board) (r : Nat) : Board :=
  h.getD r create_initial_state

/-- `apply_action` with the allocation behaviour made explicit:
`board.copy()` appends a fresh array equal to `board`, and the
item assignment mutates that fresh array in place. -/
def apply_action_heap (h : List Board) (bref : Nat) (action : Int × Int)
    (player : Int) : Except PyErr (List Board × Nat) :=
  let board := heapGetBoard h bref
  match normIdx action.1, normIdx action.2 with
  | some row, some col =>
    if board row col ≠ EMPTY then
      .error (.valueError
        ("Cell (" ++ toString action.1 ++ ", " ++ toString action.2 ++
          ") is not empty."))
    else
      let h1 := h ++ [board]
      let new_board := h.length
      let h2 := h1.set new_board (updateCell (heapGetBoard h1 new_board) row col player)
      .ok (h2, new_board)
  | _, _ => .error .indexError

theorem set_append_singleton {α : Type} (l : List α) (a x : α) :
    (l ++ [a]).set l.length x = l ++ [x] := by
  induction l with
  | nil => rfl
  | cons hd t ih => simp [List.set, ih]

theorem getD_append_lt {α : Type} (l l' : List α) (d : α) (i : Nat)
    (h : i < l.length) : (l ++ l').getD i d = l.getD i d := by
  induction l generalizing i with
  | nil => exact absurd h (by simp)
  | cons hd t ih =>
    cases i with
    | zero => rfl
    | succ n =>
      simp only [List.cons_append, List.getD_cons_succ]
      exact ih n (by simpa using h)

/-- C9: `apply_action` does not mutate its input — after a successful
application to an empty in-range cell, every array already in the store
(in particular the input board) is unchanged; only the freshly
allocated copy differs. -/
theorem claim_apply_no_mutation (h : List Board) (bref : Nat)
    (fr fc : Fin 3) (player : Int) (hb : bref < h.length)
    (hempty : heapGetBoard h bref fr fc = EMPTY) :
    ∃ h' newref,
      apply_action_heap h bref ((fr.val : Int), (fc.val : Int)) player =
        .ok (h', newref)
      ∧ (∀ i, i < h.length →
          h'.getD i create_initial_state = h.getD i create_initial_state)
      ∧ heapGetBoard h' bref = heapGetBoard h bref := by
  refine ⟨h ++ [updateCell (heapGetBoard h bref) fr fc player], h.length,
    ?_, ?_, ?_⟩
  · simp only [apply_action_heap, normIdx_coe, hempty]
    rw [if_neg (by simp)]
    have hget : heapGetBoard (h ++ [heapGetBoard h bref]) h.length =
        heapGetBoard h bref := by
      unfold heapGetBoard
      rw [List.getD_eq_getElem?_getD, List.getElem?_append_right (by omega)]
      simp
    rw [hget, set_append_singleton]
  · intro i hi
    exact getD_append_lt h _ _ i hi
  · unfold heapGetBoard
    exact getD_append_lt h _ _ bref hb

/-- C9, witness: in a one-array store, applying X to the centre leaves
the stored input array untouched. -/
theorem claim_apply_no_mutation_witness :
    ∃ h' newref,
      apply_action_heap [create_initial_state] 0 ((1 : Int), (1 : Int))
          PLAYER_X = .ok (h', newref)
      ∧ (∀ i, i < 1 →
          h'.getD i create_initial_state =
            [create_initial_state].getD i create_initial_state)
      ∧ heapGetBoard h' 0 = heapGetBoard [create_initial_state] 0 :=
  claim_apply_no_mutation [create_initial_state] 0 1 1 PLAYER_X
    (by decide) rfl

/-- C10: applying a legal move removes exactly that cell from the legal
moves — `get_valid_actions` of the successor board is the set of valid
actions of the input board minus the played cell. -/
theorem claim_legal_moves_apply (board : Board) (fr fc : Fin 3)
    (player : Int) (hempty : board fr fc = EMPTY)
    (hp : player = PLAYER_X ∨ player = PLAYER_O) :
    apply_action board ((fr.val : Int), (fc.val : Int)) player =
      .ok (updateCell board fr fc player)
    ∧ ∀ x : Int × Int,
        x ∈ get_valid_actions (updateCell board fr fc player) ↔
          (x ∈ get_valid_actions board ∧
            x ≠ ((fr.val : Int), (fc.val : Int))) := by
  have hpne : player ≠ EMPTY := by rcases hp with rfl | rfl <;> decide
  refine ⟨apply_action_coe board fr fc player hempty, fun x => ?_⟩
  rw [mem_get_valid_actions, mem_get_valid_actions]
  constructor
  · rintro ⟨r, c, hc, rfl⟩
    have hne : ¬(r = fr ∧ c = fc) := by
      rintro ⟨rfl, rfl⟩
      rw [updateCell_same] at hc
      exact hpne hc
    rw [updateCell_other board fr fc r c player hne] at hc
    refine ⟨⟨r, c, hc, rfl⟩, fun hx => ?_⟩
    rw [Prod.mk.injEq] at hx
    exact hne ⟨Fin.ext (by exact_mod_cast hx.1),
      Fin.ext (by exact_mod_cast hx.2)⟩
  · rintro ⟨⟨r, c, hc, rfl⟩, hxne⟩
    have hne : ¬(r = fr ∧ c = fc) := by
      rintro ⟨rfl, rfl⟩
      exact hxne rfl
    exact ⟨r, c, by rw [updateCell_other board fr fc r c player hne]; exact hc,
      rfl⟩

/-- C10, witness: after X takes the corner of the empty board, `(1, 1)`
is still a valid action and `(0, 0)` no longer is. -/
theorem claim_legal_moves_apply_witness :
    ((1 : Int), (1 : Int)) ∈
        get_valid_actions (updateCell create_initial_state 0 0 PLAYER_X)
      ∧ ((0 : Int), (0 : Int)) ∉
        get_valid_actions (updateCell create_initial_state 0 0 PLAYER_X) := by
  have h := (claim_legal_moves_apply create_initial_state 0 0 PLAYER_X rfl
    (.inl rfl)).2
  constructor
  · exact (h (1, 1)).mpr ⟨by decide, by decide⟩
  · intro hmem
    exact ((h (0, 0)).mp hmem).2 (by decide)

/-! ## The no-simultaneous-wins invariant (C1) -/

/-- The board carried by an outbound message, if any. -/
def msgBoard : Msg → Option (List (List Int))
  | .stateUpdate b _ => some b
  | .gameOver _ b => some b
  | _ => none

/-- A stored board on which not both players have a winning line. -/
def NoDoubleWin (l : List (List Int)) : Prop :=
  ¬(check_win_condition (ofList l) PLAYER_X = true ∧
    check_win_condition (ofList l) PLAYER_O = true)

/-- Invariant: every game in the registry has no winner at all (a
winning board is broadcast and immediately popped, never stored). -/
def GamesOk (st : ServerState) : Prop :=
  ∀ game_id g, lookupK st.games game_id = some g →
    check_win_condition (ofList g.board) PLAYER_X = false ∧
    check_win_condition (ofList g.board) PLAYER_O = false

theorem gamesOk_initial : GamesOk initialServer := by
  intro gid g hg
  simp [initialServer] at hg

theorem gamesOk_start_game (st : ServerState) (w1 w2 : Nat)
    (h : GamesOk st) : GamesOk (start_game st w1 w2).1 := by
  intro gid g hg
  simp only [start_game] at hg
  rw [lookupK_insertK] at hg
  split at hg
  · cases hg
    constructor
    · show check_win_condition (ofList (tolist create_initial_state))
        PLAYER_X = false
      decide
    · show check_win_condition (ofList (tolist create_initial_state))
        PLAYER_O = false
      decide
  · exact h gid g hg

theorem gamesOk_cleanup (st : ServerState) (gid : Nat) (g : GameState)
    (hinv : GamesOk st) : GamesOk (cleanupGame st gid g) := by
  intro gid' g' hg'
  unfold cleanupGame at hg'
  dsimp only at hg'
  rw [lookupK_eraseK] at hg'
  split at hg'
  · exact absurd hg' (by simp)
  · exact hinv gid' g' hg'

theorem msgsOk_noBoard (sender : Nat) (m0 : Msg) (h0 : msgBoard m0 = none) :
    ∀ (conn : Nat) (m : Msg), (conn, m) ∈ [(sender, m0)] →
      ∀ bl, msgBoard m = some bl → NoDoubleWin bl := by
  intro conn m hm bl hbl
  rw [List.mem_singleton] at hm
  obtain ⟨-, rfl⟩ := Prod.mk.injEq .. |>.mp hm
  rw [h0] at hbl
  cases hbl

theorem msgsOk_broadcast (g : GameState) (m0 : Msg)
    (h0 : ∀ bl, msgBoard m0 = some bl → NoDoubleWin bl) :
    ∀ (conn : Nat) (m : Msg), (conn, m) ∈ broadcastMsgs g m0 →
      ∀ bl, msgBoard m = some bl → NoDoubleWin bl := by
  intro conn m hm bl hbl
  unfold broadcastMsgs at hm
  simp only [List.mem_cons, List.mem_singleton, List.not_mem_nil,
    or_false] at hm
  rcases hm with hm | hm <;>
    · obtain ⟨-, rfl⟩ := Prod.mk.injEq .. |>.mp hm
      exact h0 bl hbl

/-- One accepted-or-rejected MAKE_MOVE preserves the invariant, and no
board it broadcasts is won by both players. -/
theorem handle_make_move_ok (st : ServerState) (sender game_id : Nat)
    (game : GameState) (player_id : Int) (cell : Option Int)
    (hinv : GamesOk st)
    (hg : lookupK st.games game_id = some game)
    (hp : player_id = PLAYER_X ∨ player_id = PLAYER_O) :
    GamesOk (handle_make_move st sender game_id game player_id cell).state
    ∧ ∀ (conn : Nat) (m : Msg),
        (conn, m) ∈ (handle_make_move st sender game_id game player_id cell).msgs →
        ∀ bl, msgBoard m = some bl → NoDoubleWin bl := by
  obtain ⟨hwX, hwO⟩ := hinv game_id game hg
  unfold handle_make_move
  by_cases ht : player_id ≠ game.current_turn
  · rw [if_pos ht]
    exact ⟨hinv, msgsOk_noBoard sender _ rfl⟩
  · rw [if_neg ht]
    rcases cell with _ | ci
    · exact ⟨hinv, msgsOk_noBoard sender _ rfl⟩
    · try dsimp only
      by_cases h9 : ¬(0 ≤ ci ∧ ci < 9)
      · rw [if_pos h9]
        exact ⟨hinv, msgsOk_noBoard sender _ rfl⟩
      · rw [if_neg h9]
        try dsimp only
        by_cases hmem :
            (ci / 3, ci % 3) ∈ get_valid_actions (ofList game.board)
        · rw [if_neg (not_not_intro hmem)]
          obtain ⟨fr, fc, hempty, hx, happ⟩ :=
            apply_action_of_valid (ofList game.board) _ player_id hmem
          rw [happ]
          dsimp only
          have hothX : player_id = PLAYER_O →
              check_win_condition
                (updateCell (ofList game.board) fr fc player_id) PLAYER_X
                = false := fun hq =>
            check_win_update_ne _ fr fc _ _ (by rw [hq]; decide) hwX
          have hothO : player_id = PLAYER_X →
              check_win_condition
                (updateCell (ofList game.board) fr fc player_id) PLAYER_O
                = false := fun hq =>
            check_win_update_ne _ fr fc _ _ (by rw [hq]; decide) hwO
          by_cases hw : check_win_condition
              (updateCell (ofList game.board) fr fc player_id) player_id = true
          · rw [if_pos hw]
            refine ⟨gamesOk_cleanup _ _ _ hinv, msgsOk_broadcast _ _ ?_⟩
            intro bl hbl
            obtain rfl := Option.some.inj hbl
            intro hc
            rw [ofList_tolist] at hc
            rcases hp with rfl | rfl
            · rw [hc.2] at hothO
              cases hothO rfl
            · rw [hc.1] at hothX
              cases hothX rfl
          · rw [if_neg hw]
            have hwfalse := eq_false_of_ne_true hw
            by_cases hd : check_draw_condition
                (updateCell (ofList game.board) fr fc player_id) = true
            · rw [if_pos hd]
              refine ⟨gamesOk_cleanup _ _ _ hinv, msgsOk_broadcast _ _ ?_⟩
              intro bl hbl
              obtain rfl := Option.some.inj hbl
              intro hc
              rw [ofList_tolist] at hc
              rcases hp with rfl | rfl
              · rw [hc.1] at hwfalse
                cases hwfalse
              · rw [hc.2] at hwfalse
                cases hwfalse
            · rw [if_neg hd]
              constructor
              · intro gid' g' hg'
                dsimp only at hg'
                rw [lookupK_insertK] at hg'
                split at hg'
                · cases hg'
                  dsimp only
                  rw [ofList_tolist]
                  rcases hp with rfl | rfl
                  · exact ⟨hwfalse, hothO rfl⟩
                  · exact ⟨hothX rfl, hwfalse⟩
                · exact hinv _ _ hg'
              · apply msgsOk_broadcast
                intro bl hbl
                obtain rfl := Option.some.inj hbl
                intro hc
                rw [ofList_tolist] at hc
                rcases hp with rfl | rfl
                · rw [hc.1] at hwfalse
                  cases hwfalse
                · rw [hc.2] at hwfalse
                  cases hwfalse
        · rw [if_pos hmem]
          exact ⟨hinv, msgsOk_noBoard sender _ rfl⟩

/-- Every reachable server state satisfies the registry invariant. -/
theorem reachable_gamesOk (st : ServerState) (h : Reachable st) :
    GamesOk st := by
  induction h with
  | init => exact gamesOk_initial
  | connect st conn _ ih =>
    unfold on_connect
    cases hl : st.waiting_clients.getLast? with
    | none =>
      intro gid g hg
      exact ih gid g hg
    | some w => exact gamesOk_start_game _ _ _ ih
  | frame st sender f _ ih =>
    rcases f with _ | ⟨t, c⟩
    · exact ih
    · unfold handle_frame
      dsimp only
      cases h1 : lookupK st.client_to_game sender with
      | none => exact ih
      | some game_id =>
        dsimp only
        cases h2 : lookupK st.games game_id with
        | none => exact ih
        | some game =>
          dsimp only
          cases h3 : roleOf game sender with
          | none => exact ih
          | some player_id =>
            dsimp only
            by_cases hty : t = some "MAKE_MOVE"
            · rw [if_pos hty]
              exact (handle_make_move_ok st sender game_id game player_id c
                ih h2 (roleOf_mem game sender player_id h3)).1
            · rw [if_neg hty]
              exact ih

/-- C1: on every board reachable through the server's move-handling loop
— any board stored in the registry of a reachable state, and any board
carried by a STATE_UPDATE or GAME_OVER message emitted by a frame
processed from a reachable state — `check_win_condition` never holds for
both `PLAYER_X` and `PLAYER_O` simultaneously. -/
theorem claim_no_simultaneous_wins (st : ServerState) (h : Reachable st) :
    (∀ (game_id : Nat) (g : GameState),
      lookupK st.games game_id = some g →
        ¬(check_win_condition (ofList g.board) PLAYER_X = true ∧
          check_win_condition (ofList g.board) PLAYER_O = true))
    ∧ (∀ (sender : Nat) (f : Frame) (conn : Nat) (m : Msg)
        (bl : List (List Int)),
        (conn, m) ∈ (handle_frame st sender f).msgs →
        msgBoard m = some bl →
          ¬(check_win_condition (ofList bl) PLAYER_X = true ∧
            check_win_condition (ofList bl) PLAYER_O = true)) := by
  have hok := reachable_gamesOk st h
  constructor
  · intro gid g hg hc
    rw [(hok gid g hg).1] at hc
    cases hc.1
  · intro sender f conn m bl hm hbl
    rcases f with _ | ⟨t, c⟩
    · exact msgsOk_noBoard sender (.errorMsg "Invalid JSON format.") rfl
        conn m hm bl hbl
    · unfold handle_frame at hm
      dsimp only at hm
      cases h1 : lookupK st.client_to_game sender with
      | none =>
        rw [h1] at hm
        exact absurd hm (List.not_mem_nil _)
      | some game_id =>
        rw [h1] at hm
        dsimp only at hm
        cases h2 : lookupK st.games game_id with
        | none =>
          rw [h2] at hm
          exact msgsOk_noBoard sender
            (.errorMsg "Internal server error: Game not found.") rfl
            conn m hm bl hbl
        | some game =>
          rw [h2] at hm
          dsimp only at hm
          cases h3 : roleOf game sender with
          | none =>
            rw [h3] at hm
            exact absurd hm (List.not_mem_nil _)
          | some player_id =>
            rw [h3] at hm
            dsimp only at hm
            by_cases hty : t = some "MAKE_MOVE"
            · rw [if_pos hty] at hm
              exact (handle_make_move_ok st sender game_id game player_id c
                hok h2 (roleOf_mem game sender player_id h3)).2 conn m hm bl hbl
            · rw [if_neg hty] at hm
              exact absurd hm (List.not_mem_nil _)

/-- C1, witness: the game just created by pairing connections 1 and 2 is
reachable and its (empty) board is not doubly won. -/
theorem claim_no_simultaneous_wins_witness :
    ¬(check_win_condition
        (ofList (tolist create_initial_state)) PLAYER_X = true ∧
      check_win_condition
        (ofList (tolist create_initial_state)) PLAYER_O = true) :=
  (claim_no_simultaneous_wins (on_connect (on_connect initialServer 1).1 2).1
      (Reachable.connect _ 2 (Reachable.connect _ 1 Reachable.init))).1 0
    ⟨tolist create_initial_state, PLAYER_X, 1, 2⟩ (by decide)

end TicTacToe
